import Mathlib

/-!
Verification of the Gemini background-removal tool
(`src/services/geminiService.ts` and `src/App.tsx`).

The service and UI handler are embedded as pure Lean functions.  Effects
are made explicit:

* a `File` carries the string that its `FileReader` would deliver at
  `loadend` (`none` models a `null` result);
* the external `generateContent` call is a parameter
  `api : List Part → ApiResult`;
* `processImage` returns, besides its `Except` result, the list of
  observable events it performed (file encodings and API requests), so
  that statements such as "no request is issued" are expressible;
* JavaScript truthiness of optional strings and `template`-string
  rendering of possibly-undefined values are modelled by `jsTruthy` and
  `jsString`.
-/

namespace Gemini

/-- A browser `File` as observed by the code: the `FileReader` result that
`readAsDataURL` delivers at `loadend` (`none` for `null`), and the MIME
`type` attribute. -/
structure File where
  readerResult : Option String
  type : String
deriving DecidableEq, Repr

/-- The `inlineData` field of a `@google/genai` `Part`.  `data` is an
`Option` because `split(',')[1]` can be `undefined` in JavaScript. -/
structure InlineData where
  data : Option String
  mimeType : String
deriving DecidableEq, Repr

/-- A `@google/genai` `Part`: both fields are optional in the TS type. -/
structure Part where
  inlineData : Option InlineData := none
  text : Option String := none
deriving DecidableEq, Repr

/-- The `content` object of a response candidate. -/
structure Content where
  parts : Option (List Part)
deriving DecidableEq, Repr

/-- One response candidate. -/
structure Candidate where
  content : Option Content
deriving DecidableEq, Repr

/-- The shape of the `generateContent` response that the code reads. -/
structure GenerateContentResponse where
  candidates : Option (List Candidate)
deriving DecidableEq, Repr

/-- Outcome of the external `generateContent` call: a resolved response or
a rejection carrying a message. -/
inductive ApiResult where
  | success (response : GenerateContentResponse)
  | failure (message : String)
deriving DecidableEq, Repr

/-- Observable events of one `processImage` run: encoding a file with
`FileReader`, or issuing the `generateContent` request with a payload. -/
inductive Event where
  | encode (file : File)
  | request (parts : List Part)
deriving DecidableEq, Repr

/-- JavaScript truthiness of `process.env.API_KEY` (and of strings in
general): `undefined` and the empty string are falsy. -/
def jsTruthy : Option String → Bool
  | none => false
  | some s => !s.isEmpty

/-- Rendering of a possibly-`undefined` string in a template literal:
`undefined` prints as `"undefined"`. -/
def jsString : Option String → String
  | none => "undefined"
  | some s => s

/-- JavaScript `String.prototype.split(',')` on the character list of a
string: splits at every comma, keeping empty fields. -/
def splitComma : List Char → List (List Char)
  | [] => [[]]
  | c :: cs =>
    if c = ',' then [] :: splitComma cs
    else
      match splitComma cs with
      | [] => [[c]]
      | w :: ws => (c :: w) :: ws

/-- `s.split(',')` as the code uses it. -/
def jsSplit (s : String) : List String :=
  (splitComma s.data).map String.mk

/-- `fileToGenerativePart` (geminiService.ts, lines 4-23): reads the file
as a data URL; on a truthy result resolves with `result.split(',')[1]`,
otherwise with `''`; wraps the data with the file's MIME type. -/
def fileToGenerativePart (file : File) : Part :=
  let base64EncodedData : Option String :=
    match file.readerResult with
    | some r => if r = "" then some "" else (jsSplit r).get? 1
    | none => some ""
  { inlineData := some { data := base64EncodedData, mimeType := file.type } }

/-- Error thrown when the API key environment variable is missing. -/
def apiKeyNotSetMsg : String := "API_KEY environment variable not set"

/-- Error thrown when no image part is found in the response. -/
def noImageMsg : String :=
  "API neatgrieza attēlu. Lūdzu, mēģiniet vēlreiz ar citu attēlu vai uzvedni."

/-- `response.candidates?.[0]?.content?.parts || []`: every missing link
in the optional chain collapses to the empty list. -/
def responseParts (response : GenerateContentResponse) : List Part :=
  match response.candidates with
  | some (c :: _) =>
    match c.content with
    | some content =>
      match content.parts with
      | some parts => parts
      | none => []
    | none => []
  | _ => []

/-- The loop guard `part.inlineData && part.inlineData.mimeType.startsWith('image/')`. -/
def hasInlineImage (p : Part) : Bool :=
  match p.inlineData with
  | some d => d.mimeType.startsWith "image/"
  | none => false

/-- The data URI `data:<mimeType>;base64,<data>` returned for an image part. -/
def imageDataUri (d : InlineData) : String :=
  "data:" ++ d.mimeType ++ ";base64," ++ jsString d.data

/-- The response-scanning loop of `processImage` (lines 53-60): return a
data URI for the first inline image part, else throw the no-image error. -/
def scanParts : List Part → Except String String
  | [] => .error noImageMsg
  | p :: rest =>
    match p.inlineData with
    | some d =>
      if d.mimeType.startsWith "image/" then .ok (imageDataUri d)
      else scanParts rest
    | none => scanParts rest

/-- Extraction of the image from a full response. -/
def extractImage (response : GenerateContentResponse) : Except String String :=
  scanParts (responseParts response)

/-- Payload assembly of `processImage` (lines 35-43): the encoded original
image, then the encoded background image when present, then the text part. -/
def buildParts (prompt : String) (originalImage : File)
    (backgroundImage : Option File) : List Part :=
  let parts : List Part := [fileToGenerativePart originalImage]
  let parts : List Part :=
    match backgroundImage with
    | some bg => parts ++ [fileToGenerativePart bg]
    | none => parts
  parts ++ [{ text := some prompt }]

/-- The file-encoding events performed while assembling the payload. -/
def encodeEvents (originalImage : File) (backgroundImage : Option File) :
    List Event :=
  match backgroundImage with
  | some bg => [.encode originalImage, .encode bg]
  | none => [.encode originalImage]

/-- `processImage` (geminiService.ts, lines 25-61): throws when the API
key is falsy; otherwise encodes the file(s), issues one `generateContent`
request, and either propagates the rejection or scans the response.  The
second component lists the events performed, in order. -/
def processImage (apiKey : Option String) (api : List Part → ApiResult)
    (prompt : String) (originalImage : File) (backgroundImage : Option File) :
    Except String String × List Event :=
  if jsTruthy apiKey = false then
    (.error apiKeyNotSetMsg, [])
  else
    let parts := buildParts prompt originalImage backgroundImage
    let events := encodeEvents originalImage backgroundImage ++ [.request parts]
    match api parts with
    | .failure message => (.error message, events)
    | .success response => (extractImage response, events)

/-- Recognizer for request events. -/
def isRequestEvent : Event → Bool
  | .request _ => true
  | .encode _ => false

/-- Modelled from the spec: the operation-mode enum of `types.ts`, which is
not under `src/`.  The spec says the user picks one of three
background-editing modes, and `App.tsx` switches on exactly these three
values. -/
inductive OperationMode where
  | TRANSPARENT
  | AI_BACKGROUND
  | CUSTOM_BACKGROUND
deriving DecidableEq, Repr

/-- The transient UI state of `App` (App.tsx, lines 61-67). -/
structure AppState where
  mode : OperationMode
  originalImage : Option File
  backgroundImage : Option File
  prompt : String
  resultImage : Option String
  isLoading : Bool
  error : Option String
deriving DecidableEq, Repr

/-- One invocation of `processImage` as made by the UI: its three arguments. -/
structure ApiCall where
  prompt : String
  originalImage : File
  backgroundImage : Option File
deriving DecidableEq, Repr

/-- UI message: no original image uploaded. -/
def missingOriginalMsg : String := "Lūdzu, augšupielādējiet sākotnējo attēlu."

/-- UI message: empty prompt in AI-background mode. -/
def emptyPromptMsg : String := "Lūdzu, ievadiet aprakstu jaunajam fonam."

/-- UI message: no background image in custom-background mode. -/
def missingBackgroundMsg : String := "Lūdzu, augšupielādējiet fona attēlu."

/-- Fallback shown when the caught exception has a falsy message. -/
def unexpectedErrorMsg : String := "Notika neparedzēta kļūda."

/-- The fixed prompt of TRANSPARENT mode. -/
def transparentPrompt : String :=
  "Isolate the main subject from the image and make the background transparent. The output should be a PNG image with a transparent background."

/-- The prompt template of AI_BACKGROUND mode, embedding the user's text. -/
def aiBackgroundPrompt (p : String) : String :=
  "Replace the background of the image with the following scene: " ++ p ++
    ". Keep the main subject from the original image."

/-- The fixed prompt of CUSTOM_BACKGROUND mode. -/
def customBackgroundPrompt : String :=
  "Take the main subject from the first image and place it realistically onto the background provided in the second image. Blend the subject with the new background, matching lighting and perspective."

/-- The `try`/`catch`/`finally` block of `handleProcessImage` (App.tsx,
lines 108-116): on success store the result; on rejection display the
message, with a fallback when it is falsy; always clear the loading flag. -/
def runProcess (apiKey : Option String) (api : List Part → ApiResult)
    (s : AppState) (c : ApiCall) : AppState :=
  match (processImage apiKey api c.prompt c.originalImage c.backgroundImage).1 with
  | .ok result => { s with resultImage := some result, isLoading := false }
  | .error m =>
    { s with error := some (if m = "" then unexpectedErrorMsg else m),
             isLoading := false }

/-- `handleProcessImage` (App.tsx, lines 72-117), run to completion.  The
second component records the `processImage` invocation it made, if any. -/
def handleProcessImage (apiKey : Option String) (api : List Part → ApiResult)
    (s : AppState) : AppState × Option ApiCall :=
  match s.originalImage with
  | none => ({ s with error := some missingOriginalMsg }, none)
  | some orig =>
    let s1 : AppState :=
      { s with isLoading := true, error := none, resultImage := none }
    match s.mode with
    | .TRANSPARENT =>
      let c : ApiCall := ⟨transparentPrompt, orig, none⟩
      (runProcess apiKey api s1 c, some c)
    | .AI_BACKGROUND =>
      if s.prompt.trim = "" then
        ({ s1 with error := some emptyPromptMsg, isLoading := false }, none)
      else
        let c : ApiCall := ⟨aiBackgroundPrompt s.prompt, orig, none⟩
        (runProcess apiKey api s1 c, some c)
    | .CUSTOM_BACKGROUND =>
      match s.backgroundImage with
      | none =>
        ({ s1 with error := some missingBackgroundMsg, isLoading := false }, none)
      | some bg =>
        let c : ApiCall := ⟨customBackgroundPrompt, orig, some bg⟩
        (runProcess apiKey api s1 c, some c)

/-- `isProcessButtonDisabled` (App.tsx, line 119): `!originalImage || isLoading`. -/
def isProcessButtonDisabled (s : AppState) : Bool :=
  s.originalImage.isNone || s.isLoading

/-- A click on the process button: the browser ignores it while the button
is disabled, otherwise it runs `handleProcessImage`. -/
def clickProcess (apiKey : Option String) (api : List Part → ApiResult)
    (s : AppState) : AppState × Option ApiCall :=
  if isProcessButtonDisabled s then (s, none)
  else handleProcessImage apiKey api s

/-! ### Helper lemmas -/

/-- A comma-free character list splits into itself alone. -/
theorem splitComma_no_comma (l : List Char) (h : ',' ∉ l) : splitComma l = [l] := by
  induction l with
  | nil => rfl
  | cons c cs ih =>
    have hc : ¬(c = ',') := fun hc => h (hc ▸ List.mem_cons_self c cs)
    have hcs : ',' ∉ cs := fun hm => h (List.mem_cons_of_mem c hm)
    simp [splitComma, hc, ih hcs]

/-- Splitting at the first comma: a comma-free head becomes the first field. -/
theorem splitComma_append (l₁ l₂ : List Char) (h : ',' ∉ l₁) :
    splitComma (l₁ ++ ',' :: l₂) = l₁ :: splitComma l₂ := by
  induction l₁ with
  | nil => simp [splitComma]
  | cons c cs ih =>
    have hc : ¬(c = ',') := fun hc => h (hc ▸ List.mem_cons_self c cs)
    have hcs : ',' ∉ cs := fun hm => h (List.mem_cons_of_mem c hm)
    simp [splitComma, hc, ih hcs]

/-- The scan loop returns the data URI of the first inline image part when
one exists, and the no-image error otherwise. -/
theorem scanParts_spec (ps : List Part) :
    match ps.find? hasInlineImage with
    | some p => ∃ d, p.inlineData = some d ∧ scanParts ps = .ok (imageDataUri d)
    | none => scanParts ps = .error noImageMsg := by
  induction ps with
  | nil => simp [scanParts]
  | cons p rest ih =>
    cases hd : p.inlineData with
    | none =>
      rw [List.find?_cons_of_neg _ (by simp [hasInlineImage, hd]),
        show scanParts (p :: rest) = scanParts rest by simp [scanParts, hd]]
      exact ih
    | some d =>
      by_cases hm : d.mimeType.startsWith "image/"
      · rw [List.find?_cons_of_pos _ (by simp [hasInlineImage, hd, hm])]
        exact ⟨d, hd, by simp [scanParts, hd, hm]⟩
      · rw [List.find?_cons_of_neg _ (by simp [hasInlineImage, hd, hm]),
          show scanParts (p :: rest) = scanParts rest by simp [scanParts, hd, hm]]
        exact ih

/-- The only error the scan loop can produce is the no-image error. -/
theorem scanParts_error (ps : List Part) (m : String)
    (h : scanParts ps = .error m) : m = noImageMsg := by
  induction ps with
  | nil =>
    simp [scanParts] at h
    exact h.symm
  | cons p rest ih =>
    cases hd : p.inlineData with
    | none =>
      rw [show scanParts (p :: rest) = scanParts rest by simp [scanParts, hd]] at h
      exact ih h
    | some d =>
      by_cases hm : d.mimeType.startsWith "image/"
      · simp [scanParts, hd, hm] at h
      · rw [show scanParts (p :: rest) = scanParts rest
            by simp [scanParts, hd, hm]] at h
        exact ih h

/-- Every error of `processImage` is the API-key error, the no-image
error, or the message of the API call's rejection. -/
theorem processImage_error_cases (apiKey : Option String)
    (api : List Part → ApiResult) (prompt : String) (originalImage : File)
    (backgroundImage : Option File) (m : String)
    (h : (processImage apiKey api prompt originalImage backgroundImage).1 = .error m) :
    m = apiKeyNotSetMsg ∨ m = noImageMsg ∨
      api (buildParts prompt originalImage backgroundImage) = .failure m := by
  by_cases hk : jsTruthy apiKey = false
  · simp [processImage, hk] at h
    exact Or.inl h.symm
  · cases ha : api (buildParts prompt originalImage backgroundImage) with
    | failure msg =>
      simp [processImage, hk, ha] at h
      subst h
      exact Or.inr (Or.inr rfl)
    | success response =>
      simp [processImage, hk, ha] at h
      exact Or.inr (Or.inl (scanParts_error _ _ h))

/-- Every error stored by the `try`/`catch` block is the API-key error,
the no-image error, the fallback, or the message of an API rejection. -/
theorem runProcess_error (apiKey : Option String) (api : List Part → ApiResult)
    (s : AppState) (c : ApiCall) (m : String)
    (hs : s.error = none)
    (h : (runProcess apiKey api s c).error = some m) :
    m = apiKeyNotSetMsg ∨ m = noImageMsg ∨ m = unexpectedErrorMsg ∨
      ∃ parts, api parts = .failure m := by
  cases hp : (processImage apiKey api c.prompt c.originalImage c.backgroundImage).1 with
  | ok result =>
    simp [runProcess, hp, hs] at h
  | error m' =>
    simp [runProcess, hp] at h
    by_cases hm : m' = ""
    · rw [if_pos hm] at h
      exact Or.inr (Or.inr (Or.inl h.symm))
    · rw [if_neg hm] at h
      subst h
      rcases processImage_error_cases _ _ _ _ _ _ hp with h1 | h1 | h1
      · exact Or.inl h1
      · exact Or.inr (Or.inl h1)
      · exact Or.inr (Or.inr (Or.inr ⟨_, h1⟩))

/-- Encoding a file always yields a part with `inlineData` present. -/
theorem fileToGenerativePart_isSome (f : File) :
    (fileToGenerativePart f).inlineData.isSome = true := rfl

/-- Encoding a file never yields a text part. -/
theorem fileToGenerativePart_text (f : File) :
    (fileToGenerativePart f).text = none := rfl

/-- Rebuilding a string from its character data is the identity. -/
theorem stringMk_data (s : String) : String.mk s.data = s := by
  obtain ⟨l⟩ := s
  rfl

/-! ### Sample inputs for witnesses -/

/-- A concrete file whose data URL is well formed. -/
def sampleFile : File :=
  { readerResult := some "data:image/png;base64,QUJD", type := "image/png" }

/-- The parts of `sampleResponse`: a text part, then an inline PNG part. -/
def sampleParts : List Part :=
  [{ text := some "hello" },
   { inlineData := some { data := some "IMG", mimeType := "image/png" } }]

/-- A concrete response with a text part before an inline PNG part. -/
def sampleResponse : GenerateContentResponse :=
  { candidates := some [{ content := some { parts := some sampleParts } }] }

/-- An API stub that always resolves with `sampleResponse`. -/
def sampleApiSuccess : List Part → ApiResult := fun _ => .success sampleResponse

/-- An API stub that always rejects. -/
def sampleApiFail : List Part → ApiResult := fun _ => .failure "boom"

/-- A response with no candidates at all. -/
def emptyResponse : GenerateContentResponse := { candidates := none }

/-- An API stub that resolves with a candidate-free response. -/
def sampleApiEmpty : List Part → ApiResult := fun _ => .success emptyResponse

/-! ### Claim theorems: service layer -/

/-- C1: when the key is set and the API resolves, `processImage` scans the
candidate parts in order and returns, for the first part having
`inlineData` with a MIME type starting with `image/`, the data URI
`data:<mimeType>;base64,<data>`; earlier parts without such data are
skipped, and when no such part exists it throws the no-image error. -/
theorem processImage_returns_first_image
    (apiKey : Option String) (api : List Part → ApiResult)
    (prompt : String) (originalImage : File) (backgroundImage : Option File)
    (response : GenerateContentResponse)
    (hk : jsTruthy apiKey = true)
    (ha : api (buildParts prompt originalImage backgroundImage) = .success response) :
    (processImage apiKey api prompt originalImage backgroundImage).1 =
        extractImage response ∧
    (match (responseParts response).find? hasInlineImage with
     | some p => ∃ d, p.inlineData = some d ∧
         extractImage response = .ok (imageDataUri d)
     | none => extractImage response = .error noImageMsg) := by
  refine ⟨by simp [processImage, hk, ha], ?_⟩
  exact scanParts_spec (responseParts response)

/-- C1 witness: on `sampleResponse` the text part is skipped and the PNG
part becomes a data URI. -/
theorem processImage_returns_first_image_witness :
    jsTruthy (some "key") = true ∧
    sampleApiSuccess (buildParts "p" sampleFile none) = .success sampleResponse ∧
    ((processImage (some "key") sampleApiSuccess "p" sampleFile none).1 =
        extractImage sampleResponse ∧
     (match (responseParts sampleResponse).find? hasInlineImage with
      | some p => ∃ d, p.inlineData = some d ∧
          extractImage sampleResponse = .ok (imageDataUri d)
      | none => extractImage sampleResponse = .error noImageMsg)) :=
  ⟨rfl, rfl,
    processImage_returns_first_image (some "key") sampleApiSuccess "p"
      sampleFile none sampleResponse rfl rfl⟩

/-- C2: the request payload contains exactly one text part, equal to the
prompt and placed last, and the encoded original image first, followed by
the encoded background image exactly when one was given. -/
theorem processImage_payload_shape
    (apiKey : Option String) (api : List Part → ApiResult)
    (prompt : String) (originalImage : File) (backgroundImage : Option File)
    (ps : List Part)
    (h : Event.request ps ∈
      (processImage apiKey api prompt originalImage backgroundImage).2) :
    ps = buildParts prompt originalImage backgroundImage ∧
    ps.filter (fun p => p.text.isSome) = [{ text := some prompt }] ∧
    ps.getLast? = some { text := some prompt } ∧
    ps.filter (fun p => p.inlineData.isSome) =
      (match backgroundImage with
       | none => [fileToGenerativePart originalImage]
       | some bg => [fileToGenerativePart originalImage, fileToGenerativePart bg]) := by
  have hps : ps = buildParts prompt originalImage backgroundImage := by
    by_cases hk : jsTruthy apiKey = false
    · simp [processImage, hk] at h
    · rcases backgroundImage with _ | bg
      · cases ha : api (buildParts prompt originalImage none) <;>
          simp [processImage, hk, encodeEvents, ha] at h <;> exact h
      · cases ha : api (buildParts prompt originalImage (some bg)) <;>
          simp [processImage, hk, encodeEvents, ha] at h <;> exact h
  subst hps
  refine ⟨rfl, ?_, ?_, ?_⟩
  · rcases backgroundImage with _ | bg <;>
      simp [buildParts, List.filter, fileToGenerativePart_text]
  · rcases backgroundImage with _ | bg <;>
      · rw [buildParts]
        exact List.getLast?_concat _
  · rcases backgroundImage with _ | bg <;>
      simp [buildParts, List.filter, fileToGenerativePart_isSome]

/-- C2 witness: a concrete run with no background image. -/
theorem processImage_payload_shape_witness :
    buildParts "p" sampleFile none =
        buildParts "p" sampleFile none ∧
    (buildParts "p" sampleFile none).filter (fun p => p.text.isSome) =
        [{ text := some "p" }] ∧
    (buildParts "p" sampleFile none).getLast? = some { text := some "p" } ∧
    (buildParts "p" sampleFile none).filter (fun p => p.inlineData.isSome) =
        [fileToGenerativePart sampleFile] :=
  processImage_payload_shape (some "key") sampleApiFail "p" sampleFile none
    (buildParts "p" sampleFile none) (by decide)

/-- C7: one invocation of `processImage` issues the `generateContent`
request at most once, and exactly once when the API key is set; no path
retries after a rejection or an image-free response. -/
theorem processImage_at_most_one_request
    (apiKey : Option String) (api : List Part → ApiResult)
    (prompt : String) (originalImage : File) (backgroundImage : Option File) :
    ((processImage apiKey api prompt originalImage backgroundImage).2.filter
        isRequestEvent).length ≤ 1 ∧
    (jsTruthy apiKey = true →
      ((processImage apiKey api prompt originalImage backgroundImage).2.filter
          isRequestEvent).length = 1) := by
  by_cases hk : jsTruthy apiKey = false
  · constructor
    · simp [processImage, hk]
    · intro h
      rw [h] at hk
      simp at hk
  · have key : ((processImage apiKey api prompt originalImage
        backgroundImage).2.filter isRequestEvent).length = 1 := by
      rcases backgroundImage with _ | bg
      · cases ha : api (buildParts prompt originalImage none) <;>
          simp [processImage, hk, encodeEvents, isRequestEvent, ha]
      · cases ha : api (buildParts prompt originalImage (some bg)) <;>
          simp [processImage, hk, encodeEvents, isRequestEvent, ha]
    exact ⟨le_of_eq key, fun _ => key⟩

/-- C7 witness: a concrete run with the key set issues exactly one request. -/
theorem processImage_at_most_one_request_witness :
    ((processImage (some "key") sampleApiFail "p" sampleFile none).2.filter
        isRequestEvent).length = 1 :=
  (processImage_at_most_one_request (some "key") sampleApiFail "p"
    sampleFile none).2 rfl

/-- C8: when candidates is absent or empty, or the first candidate lacks
content or a parts list, the scan sees the empty list and `processImage`
throws the no-image error instead of faulting. -/
theorem processImage_no_image_on_missing_fields
    (apiKey : Option String) (api : List Part → ApiResult)
    (prompt : String) (originalImage : File) (backgroundImage : Option File)
    (response : GenerateContentResponse)
    (hk : jsTruthy apiKey = true)
    (ha : api (buildParts prompt originalImage backgroundImage) = .success response)
    (hshape : response.candidates = none ∨ response.candidates = some [] ∨
      ∃ c cs, response.candidates = some (c :: cs) ∧
        (c.content = none ∨
          ∃ content, c.content = some content ∧ content.parts = none)) :
    (processImage apiKey api prompt originalImage backgroundImage).1 =
      .error noImageMsg := by
  have hparts : responseParts response = [] := by
    rcases hshape with h | h | ⟨c, cs, hc, h | ⟨content, hct, hp⟩⟩
    · simp [responseParts, h]
    · simp [responseParts, h]
    · simp [responseParts, hc, h]
    · simp [responseParts, hc, hct, hp]
  simp [processImage, hk, ha, extractImage, hparts, scanParts]

/-- C8 witness: a response with `candidates` absent yields the no-image error. -/
theorem processImage_no_image_on_missing_fields_witness :
    (processImage (some "key") sampleApiEmpty "p" sampleFile none).1 =
      .error noImageMsg :=
  processImage_no_image_on_missing_fields (some "key") sampleApiEmpty "p"
    sampleFile none emptyResponse rfl rfl (Or.inl rfl)

/-- C9: with the API key unset or empty, `processImage` throws the
API-key error and performs no event at all: no file is read or encoded
and no request is issued. -/
theorem processImage_no_events_without_key
    (apiKey : Option String) (api : List Part → ApiResult)
    (prompt : String) (originalImage : File) (backgroundImage : Option File)
    (h : jsTruthy apiKey = false) :
    processImage apiKey api prompt originalImage backgroundImage =
      (.error apiKeyNotSetMsg, []) := by
  simp [processImage, h]

/-- C9 witness: a concrete run with the key variable unset. -/
theorem processImage_no_events_without_key_witness :
    processImage none sampleApiFail "p" sampleFile none =
      (.error apiKeyNotSetMsg, []) :=
  processImage_no_events_without_key none sampleApiFail "p" sampleFile none rfl

/-- C10: `fileToGenerativePart` never rejects: a `null` or empty reader
result yields a part whose data is the empty string with the file's MIME
type, and a well-formed comma-separated data URL yields the substring
after its first comma. -/
theorem fileToGenerativePart_never_fails (file : File) :
    ((file.readerResult = none ∨ file.readerResult = some "") →
      fileToGenerativePart file =
        { inlineData := some { data := some "", mimeType := file.type } }) ∧
    (∀ pre d : String, file.readerResult = some (pre ++ "," ++ d) →
      ',' ∉ pre.data → ',' ∉ d.data →
      fileToGenerativePart file =
        { inlineData := some { data := some d, mimeType := file.type } }) := by
  constructor
  · rintro (h | h) <;> simp [fileToGenerativePart, h]
  · intro pre d hr h1 h2
    have hdata : (pre ++ "," ++ d).data = pre.data ++ ',' :: d.data := by
      rw [String.data_append, String.data_append]
      simp
    have hne : ¬(pre ++ "," ++ d = "") := by
      intro h0
      have h3 : pre.data ++ ',' :: d.data = ([] : List Char) := by
        rw [← hdata, h0]
      simp at h3
    have hsplit : (jsSplit (pre ++ "," ++ d))[1]? = some d := by
      unfold jsSplit
      rw [hdata, splitComma_append _ _ h1, splitComma_no_comma _ h2]
      simp [stringMk_data]
    simp [fileToGenerativePart, hr, hne, hsplit]

/-- C10 witness: a `null` reader result and a concrete data URL. -/
theorem fileToGenerativePart_never_fails_witness :
    fileToGenerativePart { readerResult := none, type := "image/png" } =
      { inlineData := some { data := some "", mimeType := "image/png" } } ∧
    fileToGenerativePart sampleFile =
      { inlineData := some { data := some "QUJD", mimeType := "image/png" } } :=
  ⟨(fileToGenerativePart_never_fails
      { readerResult := none, type := "image/png" }).1 (Or.inl rfl),
   (fileToGenerativePart_never_fails sampleFile).2
      "data:image/png;base64" "QUJD" rfl (by decide) (by decide)⟩

/-! ### Claim theorems: UI layer -/

/-- A state with nothing uploaded. -/
def sampleState : AppState :=
  { mode := .TRANSPARENT, originalImage := none, backgroundImage := none,
    prompt := "", resultImage := none, isLoading := false, error := none }

/-- A state with an original image uploaded, in TRANSPARENT mode. -/
def sampleStateWithImage : AppState :=
  { sampleState with originalImage := some sampleFile }

/-- A state whose loading flag is raised. -/
def loadingState : AppState := { sampleState with isLoading := true }

/-- When the `try` block stores an error, the state keeps a cleared result
image and a lowered loading flag, and shows the message or the fallback. -/
theorem runProcess_error_state (apiKey : Option String)
    (api : List Part → ApiResult) (s : AppState) (c : ApiCall) (m : String)
    (hres : s.resultImage = none)
    (he : (processImage apiKey api c.prompt c.originalImage c.backgroundImage).1 =
      .error m) :
    (runProcess apiKey api s c).error =
        some (if m = "" then unexpectedErrorMsg else m) ∧
    (runProcess apiKey api s c).resultImage = none ∧
    (runProcess apiKey api s c).isLoading = false := by
  simp [runProcess, he, hres]

/-- When `handleProcessImage` records a call, its resulting state is the
`try`/`catch` outcome over the cleared intermediate state. -/
theorem handleProcessImage_call_state (apiKey : Option String)
    (api : List Part → ApiResult) (s : AppState) (c : ApiCall)
    (hc : (handleProcessImage apiKey api s).2 = some c) :
    (handleProcessImage apiKey api s).1 =
      runProcess apiKey api
        { s with isLoading := true, error := none, resultImage := none } c := by
  rcases ho : s.originalImage with _ | orig
  · simp [handleProcessImage, ho] at hc
  · cases hm : s.mode
    case TRANSPARENT =>
      simp [handleProcessImage, ho, hm] at hc ⊢
      rw [← hc]
    case AI_BACKGROUND =>
      by_cases hp : s.prompt.trim = ""
      · simp [handleProcessImage, ho, hm, hp] at hc
      · simp [handleProcessImage, ho, hm, hp] at hc ⊢
        rw [← hc]
    case CUSTOM_BACKGROUND =>
      rcases hb : s.backgroundImage with _ | bg
      · simp [handleProcessImage, ho, hm, hb] at hc
      · simp [handleProcessImage, ho, hm, hb] at hc ⊢
        rw [← hc]

/-- Formalization of the claim under test for C3: every error surfaced by
`processImage` would be the message of the external API call's rejection. -/
def errorsOnlyFromApiRejection : Prop :=
  ∀ (apiKey : Option String) (api : List Part → ApiResult)
    (prompt : String) (originalImage : File) (backgroundImage : Option File)
    (m : String),
    (processImage apiKey api prompt originalImage backgroundImage).1 = .error m →
    api (buildParts prompt originalImage backgroundImage) = .failure m

/-- C3 counterexample: with the API key unset, `processImage` surfaces the
API-key error although the (never-failing) API was not even called. -/
theorem errors_not_only_from_api_rejection : ¬ errorsOnlyFromApiRejection := by
  intro h
  have h1 := h none sampleApiEmpty "" sampleFile none apiKeyNotSetMsg rfl
  simp [sampleApiEmpty] at h1

/-- C3 amended: every surfaced error is one of the three UI validation
messages, the API-key error, the no-image error, the fixed fallback, or
the message of an API rejection. -/
theorem handleProcessImage_error_sources (apiKey : Option String)
    (api : List Part → ApiResult) (s : AppState) (m : String)
    (h : (handleProcessImage apiKey api s).1.error = some m) :
    m = missingOriginalMsg ∨ m = emptyPromptMsg ∨ m = missingBackgroundMsg ∨
    m = apiKeyNotSetMsg ∨ m = noImageMsg ∨ m = unexpectedErrorMsg ∨
    ∃ parts, api parts = .failure m := by
  rcases ho : s.originalImage with _ | orig
  · simp [handleProcessImage, ho] at h
    exact Or.inl h.symm
  · cases hm : s.mode
    case TRANSPARENT =>
      simp [handleProcessImage, ho, hm] at h
      rcases runProcess_error apiKey api _ _ m rfl h with h1 | h1 | h1 | h1
      · exact Or.inr (Or.inr (Or.inr (Or.inl h1)))
      · exact Or.inr (Or.inr (Or.inr (Or.inr (Or.inl h1))))
      · exact Or.inr (Or.inr (Or.inr (Or.inr (Or.inr (Or.inl h1)))))
      · exact Or.inr (Or.inr (Or.inr (Or.inr (Or.inr (Or.inr h1)))))
    case AI_BACKGROUND =>
      by_cases hp : s.prompt.trim = ""
      · simp [handleProcessImage, ho, hm, hp] at h
        exact Or.inr (Or.inl h.symm)
      · simp [handleProcessImage, ho, hm, hp] at h
        rcases runProcess_error apiKey api _ _ m rfl h with h1 | h1 | h1 | h1
        · exact Or.inr (Or.inr (Or.inr (Or.inl h1)))
        · exact Or.inr (Or.inr (Or.inr (Or.inr (Or.inl h1))))
        · exact Or.inr (Or.inr (Or.inr (Or.inr (Or.inr (Or.inl h1)))))
        · exact Or.inr (Or.inr (Or.inr (Or.inr (Or.inr (Or.inr h1)))))
    case CUSTOM_BACKGROUND =>
      rcases hb : s.backgroundImage with _ | bg
      · simp [handleProcessImage, ho, hm, hb] at h
        exact Or.inr (Or.inr (Or.inl h.symm))
      · simp [handleProcessImage, ho, hm, hb] at h
        rcases runProcess_error apiKey api _ _ m rfl h with h1 | h1 | h1 | h1
        · exact Or.inr (Or.inr (Or.inr (Or.inl h1)))
        · exact Or.inr (Or.inr (Or.inr (Or.inr (Or.inl h1))))
        · exact Or.inr (Or.inr (Or.inr (Or.inr (Or.inr (Or.inl h1)))))
        · exact Or.inr (Or.inr (Or.inr (Or.inr (Or.inr (Or.inr h1)))))

/-- C3 amended witness: the missing-original-image validation message. -/
theorem handleProcessImage_error_sources_witness :
    missingOriginalMsg = missingOriginalMsg ∨
    missingOriginalMsg = emptyPromptMsg ∨
    missingOriginalMsg = missingBackgroundMsg ∨
    missingOriginalMsg = apiKeyNotSetMsg ∨
    missingOriginalMsg = noImageMsg ∨
    missingOriginalMsg = unexpectedErrorMsg ∨
    ∃ parts, sampleApiFail parts = .failure missingOriginalMsg :=
  handleProcessImage_error_sources none sampleApiFail sampleState
    missingOriginalMsg rfl

/-- C4: with an original image present, TRANSPARENT mode calls the API
with the fixed isolate-subject prompt and no background image;
AI_BACKGROUND proceeds only when the trimmed prompt is non-empty and
embeds the user's text with no background image; CUSTOM_BACKGROUND
proceeds only when a background image was uploaded and passes it as the
second image. -/
theorem handleProcessImage_mode_dispatch (apiKey : Option String)
    (api : List Part → ApiResult) (s : AppState) (orig : File)
    (h : s.originalImage = some orig) :
    (handleProcessImage apiKey api s).2 =
      (match s.mode with
       | .TRANSPARENT => some ⟨transparentPrompt, orig, none⟩
       | .AI_BACKGROUND =>
         if s.prompt.trim = "" then none
         else some ⟨aiBackgroundPrompt s.prompt, orig, none⟩
       | .CUSTOM_BACKGROUND =>
         match s.backgroundImage with
         | none => none
         | some bg => some ⟨customBackgroundPrompt, orig, some bg⟩) := by
  cases hm : s.mode
  case TRANSPARENT => simp [handleProcessImage, h, hm]
  case AI_BACKGROUND =>
    by_cases hp : s.prompt.trim = "" <;> simp [handleProcessImage, h, hm, hp]
  case CUSTOM_BACKGROUND =>
    rcases hb : s.backgroundImage with _ | bg <;>
      simp [handleProcessImage, h, hm, hb]

/-- C4 witness: TRANSPARENT mode sends the fixed prompt, no background. -/
theorem handleProcessImage_mode_dispatch_witness :
    (handleProcessImage (some "key") sampleApiFail sampleStateWithImage).2 =
      (match sampleStateWithImage.mode with
       | .TRANSPARENT => some ⟨transparentPrompt, sampleFile, none⟩
       | .AI_BACKGROUND =>
         if sampleStateWithImage.prompt.trim = "" then none
         else some ⟨aiBackgroundPrompt sampleStateWithImage.prompt, sampleFile, none⟩
       | .CUSTOM_BACKGROUND =>
         match sampleStateWithImage.backgroundImage with
         | none => none
         | some bg => some ⟨customBackgroundPrompt, sampleFile, some bg⟩) :=
  handleProcessImage_mode_dispatch (some "key") sampleApiFail
    sampleStateWithImage sampleFile rfl

/-- C5: when the recorded `processImage` invocation rejects with message
`m`, the final state shows `m` (or the fixed fallback when `m` is empty),
keeps the result image `null`, and lowers the loading flag. -/
theorem handleProcessImage_rejection_state (apiKey : Option String)
    (api : List Part → ApiResult) (s : AppState) (c : ApiCall) (m : String)
    (hc : (handleProcessImage apiKey api s).2 = some c)
    (he : (processImage apiKey api c.prompt c.originalImage c.backgroundImage).1 =
      .error m) :
    (handleProcessImage apiKey api s).1.error =
        some (if m = "" then unexpectedErrorMsg else m) ∧
    (handleProcessImage apiKey api s).1.resultImage = none ∧
    (handleProcessImage apiKey api s).1.isLoading = false := by
  rw [handleProcessImage_call_state apiKey api s c hc]
  exact runProcess_error_state apiKey api _ c m rfl he

/-- C5 witness: with the key unset, the run rejects and the API-key error
is displayed with the result cleared and loading lowered. -/
theorem handleProcessImage_rejection_state_witness :
    (handleProcessImage none sampleApiFail sampleStateWithImage).1.error =
        some (if apiKeyNotSetMsg = "" then unexpectedErrorMsg else apiKeyNotSetMsg) ∧
    (handleProcessImage none sampleApiFail sampleStateWithImage).1.resultImage =
        none ∧
    (handleProcessImage none sampleApiFail sampleStateWithImage).1.isLoading =
        false :=
  handleProcessImage_rejection_state none sampleApiFail sampleStateWithImage
    ⟨transparentPrompt, sampleFile, none⟩ apiKeyNotSetMsg rfl rfl

/-- C6: while the loading flag is raised the process button is disabled,
so a click is ignored and no second `handleProcessImage` run can start
before the flag is lowered. -/
theorem loading_disables_button (s : AppState) (h : s.isLoading = true) :
    isProcessButtonDisabled s = true ∧
    ∀ (apiKey : Option String) (api : List Part → ApiResult),
      clickProcess apiKey api s = (s, none) := by
  have hd : isProcessButtonDisabled s = true := by
    simp [isProcessButtonDisabled, h]
  exact ⟨hd, fun apiKey api => by simp [clickProcess, hd]⟩

/-- C6 witness: a loading state swallows a click. -/
theorem loading_disables_button_witness :
    isProcessButtonDisabled loadingState = true ∧
    clickProcess none sampleApiFail loadingState = (loadingState, none) :=
  ⟨(loading_disables_button loadingState rfl).1,
   (loading_disables_button loadingState rfl).2 none sampleApiFail⟩

end Gemini
